import Mathlib

/-!
# Lumina Cut — timeline compositing and editing model

A shallow embedding of the timeline data model and the editing/compositing
operations of the Lumina Cut video editor, together with theorems checking
the natural-language specification against that embedding.

Times, durations and gains are modelled as rationals (`ℚ`); the JavaScript
source computes with floating point numbers, and the rationals give the
idealised exact arithmetic of the same expressions.  Fresh identifiers that
the source draws from `Math.random()` are taken as explicit parameters.
-/

namespace Lumina

/-- Kind of a track (`TrackType` in `types.ts`): `video`, `audio` or `text`. -/
inductive TrackType where
  | video
  | audio
  | text
deriving DecidableEq, Repr

/-- Kind of a clip (the `type` field of `Clip` in `types.ts`). -/
inductive ClipType where
  | video
  | image
  | audio
  | text
deriving DecidableEq, Repr

/-- Entry-transition kinds (`TransitionType` in `types.ts`);
`slideLeft`/`slideRight` stand for the source's `'slide-left'`/`'slide-right'`. -/
inductive TransitionType where
  | fade
  | slideLeft
  | slideRight
  | wipe
  | zoom
  | dissolve
deriving DecidableEq, Repr

/-- A clip's entry transition: kind plus duration in seconds. -/
structure Transition where
  type : TransitionType
  duration : ℚ
deriving DecidableEq, Repr

/-- One speed-ramp control point `{time, speed}`: `time` is a timeline
progress fraction in `[0,1]`, `speed` a playback-speed multiplier. -/
structure RampPoint where
  time : ℚ
  speed : ℚ
deriving DecidableEq, Repr

/-- The `speedRamp` property: an enabled flag and the control-point list. -/
structure SpeedRamp where
  enabled : Bool
  points : List RampPoint
deriving DecidableEq, Repr

/-- The sparse `ClipProperties` bag (`types.ts`), restricted to the fields the
editing and mixing operations under verification read.  Optional source
fields become `Option`s; a missing field is `none`. -/
structure ClipProperties where
  opacity : Option ℚ := none
  scale : Option ℚ := none
  volume : Option ℚ := none
  pan : Option ℚ := none
  speed : Option ℚ := none
  reversed : Option Bool := none
  speedRamp : Option SpeedRamp := none
  aiExtendedDuration : Option ℚ := none
deriving DecidableEq, Repr

/-- A clip (`Clip` in `types.ts`).  `selected` is optional in the source with
falsy default, so it is a plain `Bool` here. -/
structure Clip where
  id : String
  assetId : String
  name : String
  trackId : String
  startOffset : ℚ
  duration : ℚ
  sourceStart : ℚ
  type : ClipType
  src : String
  selected : Bool
  properties : ClipProperties
  transition : Option Transition := none
  thumbnail : Option String := none
deriving DecidableEq, Repr

/-- A track (`Track` in `types.ts`). -/
structure Track where
  id : String
  type : TrackType
  name : String
  isMuted : Bool
  isLocked : Bool
  isSolo : Bool
  isRecordArmed : Bool
deriving DecidableEq, Repr

/-- A timeline marker (`Marker` in `types.ts`). -/
structure Marker where
  id : String
  time : ℚ
  label : String
  color : String
deriving DecidableEq, Repr

/-- The aggregate `ProjectState` (`types.ts`).  The source's `aspectRatio`
string union (`'16:9' | '9:16' | '1:1' | '4:5'`) is modelled by the field
`aspect : String`. -/
structure ProjectState where
  tracks : List Track
  clips : List Clip
  markers : List Marker
  currentTime : ℚ
  duration : ℚ
  zoom : ℚ
  isPlaying : Bool
  aspect : String
deriving DecidableEq, Repr

/-- Whether a clip's speed ramp is enabled (`clip.properties.speedRamp?.enabled`,
with optional chaining giving `false` when the field is missing). -/
def rampEnabled (c : Clip) : Bool :=
  match c.properties.speedRamp with
  | some r => r.enabled
  | none => false

/-- `reversed` with its falsy default (`props.reversed` truthiness). -/
def reversedFlag (c : Clip) : Bool :=
  c.properties.reversed.getD false

/-! ## Speed-Ramp Resolver (Player, `part_000`) -/

/-- `calculateRampedSourceDuration` from the Player: trapezoidal integration
of speed over the full control-point list, accumulating
`(p2.time - p1.time) * timelineDuration * (p1.speed + p2.speed)/2`
per segment. -/
def rampedAux (timelineDuration : ℚ) : RampPoint → List RampPoint → ℚ
  | _, [] => 0
  | p1, p2 :: rest =>
      (p2.time - p1.time) * timelineDuration * ((p1.speed + p2.speed) / 2)
        + rampedAux timelineDuration p2 rest

/-- Total source-media duration consumed by a ramped clip
(`calculateRampedSourceDuration(timelineDuration, points)`). -/
def calculateRampedSourceDuration (timelineDuration : ℚ) (points : List RampPoint) : ℚ :=
  match points with
  | [] => 0
  | p :: rest => rampedAux timelineDuration p rest

/-- The loop body of `calculateSourceTimeAtProgress`: walk the points from the
second one on, carrying the previous point.  A fully traversed segment
(`progress > currentPoint.time`) adds its whole trapezoid; otherwise the
partial trapezoid up to `progress` is added and the walk stops.  In the
source, a zero `timeDiff` in the partial branch makes `segmentProgress`
`NaN` or `±Infinity` and the loop breaks without accumulating; that break is
the `timeDiff = 0` case here. -/
def sourceTimeAux (progress timelineDuration : ℚ) : RampPoint → List RampPoint → ℚ
  | _, [] => 0
  | lastPoint, currentPoint :: rest =>
      if progress > currentPoint.time then
        (currentPoint.time - lastPoint.time) * timelineDuration
            * ((lastPoint.speed + currentPoint.speed) / 2)
          + sourceTimeAux progress timelineDuration currentPoint rest
      else
        if currentPoint.time - lastPoint.time = 0 then 0
        else
          let segmentProgress := (progress - lastPoint.time) / (currentPoint.time - lastPoint.time)
          let speedAtProgress :=
            lastPoint.speed + (currentPoint.speed - lastPoint.speed) * segmentProgress
          let avgSpeed := (lastPoint.speed + speedAtProgress) / 2
          let timeInSegment :=
            segmentProgress * (currentPoint.time - lastPoint.time) * timelineDuration
          timeInSegment * avgSpeed

/-- Source-media time consumed at a given timeline progress fraction
(`calculateSourceTimeAtProgress(progress, timelineDuration, points)`). -/
def calculateSourceTimeAtProgress (progress timelineDuration : ℚ)
    (points : List RampPoint) : ℚ :=
  match points with
  | [] => 0
  | p :: rest => sourceTimeAux progress timelineDuration p rest

/-- Strictly increasing `time` components, continuing from a previous time. -/
def timesStrictMono : ℚ → List RampPoint → Prop
  | _, [] => True
  | t, p :: rest => t < p.time ∧ timesStrictMono p.time rest

/-- The `time` of the last control point, with a default for the empty list. -/
def lastTime : ℚ → List RampPoint → ℚ
  | t, [] => t
  | _, p :: rest => lastTime p.time rest

lemma timesStrictMono_lt_lastTime :
    ∀ (l : List RampPoint) (t : ℚ) (p : RampPoint),
      timesStrictMono t (p :: l) → t < lastTime t (p :: l) := by
  intro l
  induction l with
  | nil => intro t p h; exact h.1
  | cons q rest ih =>
      intro t p h
      exact lt_trans h.1 (ih p.time q h.2)

lemma rampedAux_cons (D : ℚ) (p1 p2 : RampPoint) (rest : List RampPoint) :
    rampedAux D p1 (p2 :: rest) =
      (p2.time - p1.time) * D * ((p1.speed + p2.speed) / 2) + rampedAux D p2 rest := by
  simp only [rampedAux]

lemma sourceTimeAux_cons_full (progress D : ℚ) (last cur : RampPoint)
    (rest : List RampPoint) (h : progress > cur.time) :
    sourceTimeAux progress D last (cur :: rest) =
      (cur.time - last.time) * D * ((last.speed + cur.speed) / 2)
        + sourceTimeAux progress D cur rest := by
  simp only [sourceTimeAux]
  rw [if_pos h]

lemma sourceTimeAux_cons_within (progress D : ℚ) (last cur : RampPoint)
    (rest : List RampPoint) (h : ¬ progress > cur.time) (hd : cur.time - last.time ≠ 0) :
    sourceTimeAux progress D last (cur :: rest) =
      ((progress - last.time) / (cur.time - last.time)) * (cur.time - last.time) * D
        * ((last.speed
            + (last.speed + (cur.speed - last.speed)
                * ((progress - last.time) / (cur.time - last.time)))) / 2) := by
  simp only [sourceTimeAux]
  rw [if_neg h, if_neg hd]

lemma sourceTimeAux_eq_rampedAux (D : ℚ) :
    ∀ (pts : List RampPoint) (last : RampPoint),
      timesStrictMono last.time pts → lastTime last.time pts = 1 → pts ≠ [] →
      sourceTimeAux 1 D last pts = rampedAux D last pts := by
  intro pts
  induction pts with
  | nil => intro last _ _ hne; exact absurd rfl hne
  | cons cur rest ih =>
      intro last hmono hlast _
      match rest, hmono, hlast with
      | [], hmono, hlast =>
          -- final segment: `lastTime` is `cur.time = 1`, the walk takes the
          -- partial branch with `segmentProgress = 1`
          have hcur : cur.time = 1 := hlast
          have hlt : last.time < 1 := hcur ▸ hmono.1
          have hd : cur.time - last.time ≠ 0 := by
            rw [hcur]; exact sub_ne_zero_of_ne hlt.ne'
          rw [sourceTimeAux_cons_within 1 D last cur [] (by rw [hcur]; exact lt_irrefl 1) hd,
            rampedAux_cons, hcur]
          have hd1 : (1 : ℚ) - last.time ≠ 0 := by rw [hcur] at hd; exact hd
          rw [div_self hd1]
          simp only [rampedAux]
          ring
      | r :: rs, hmono, hlast =>
          -- interior segment: `cur.time < 1`, the whole trapezoid accumulates
          have hcl : cur.time < 1 := by
            have := timesStrictMono_lt_lastTime rs cur.time r hmono.2
            rw [show lastTime cur.time (r :: rs) = lastTime last.time (cur :: r :: rs) from rfl,
              hlast] at this
            exact this
          rw [sourceTimeAux_cons_full 1 D last cur (r :: rs) hcl, rampedAux_cons,
            ih cur hmono.2 hlast (by simp)]

example :
    calculateRampedSourceDuration 10
      [⟨0, 1⟩, ⟨1/2, 2⟩, ⟨1, 1⟩] = 15 := by norm_num [calculateRampedSourceDuration, rampedAux]

example :
    calculateSourceTimeAtProgress (1/2) 10
      [⟨0, 1⟩, ⟨1/2, 2⟩, ⟨1, 1⟩] = 15/2 := by
  norm_num [calculateSourceTimeAtProgress, sourceTimeAux]

/-- C4: for every speed-ramp control-point list whose times are monotonically
increasing and span 0 to 1, and every timeline duration `D`, the source time
consumed at full progress, `calculateSourceTimeAtProgress 1 D points`, equals
the total ramped source duration `calculateRampedSourceDuration D points`. -/
theorem sourceTime_at_one_eq_rampedDuration (D : ℚ) (p : RampPoint)
    (rest : List RampPoint) (hfirst : p.time = 0)
    (hmono : timesStrictMono p.time rest) (hlast : lastTime p.time rest = 1) :
    calculateSourceTimeAtProgress 1 D (p :: rest)
      = calculateRampedSourceDuration D (p :: rest) := by
  have hne : rest ≠ [] := by
    intro h
    rw [h] at hlast
    rw [show lastTime p.time [] = p.time from rfl, hfirst] at hlast
    exact absurd hlast (by norm_num)
  exact sourceTimeAux_eq_rampedAux D rest p hmono hlast hne

/-- Witness for C4 at the spec's sample ramp `[{0,1},{0.5,2},{1,1}]`, `D = 10`. -/
theorem sourceTime_at_one_eq_rampedDuration_witness :
    timesStrictMono (RampPoint.mk 0 1).time [⟨1/2, 2⟩, ⟨1, 1⟩] ∧
      lastTime (RampPoint.mk 0 1).time [⟨1/2, 2⟩, ⟨1, 1⟩] = 1 ∧
      calculateSourceTimeAtProgress 1 10 [⟨0, 1⟩, ⟨1/2, 2⟩, ⟨1, 1⟩]
        = calculateRampedSourceDuration 10 [⟨0, 1⟩, ⟨1/2, 2⟩, ⟨1, 1⟩] :=
  ⟨by norm_num [timesStrictMono], by norm_num [lastTime],
    sourceTime_at_one_eq_rampedDuration 10 ⟨0, 1⟩ [⟨1/2, 2⟩, ⟨1, 1⟩] rfl
      (by norm_num [timesStrictMono]) (by norm_num [lastTime])⟩

/-! ## Visibility & Mix Resolver (Player, `part_000`) -/

/-- JavaScript `Array.prototype.indexOf` on a list of track ids: index of the
first occurrence, `-1` when absent. -/
def jsIndexOf (l : List String) (x : String) : ℤ :=
  match l.indexOf? x with
  | some i => (i : ℤ)
  | none => -1

/-- The filter predicate of `getActiveVisualClips`: the clip's track must
exist and not be solo-suppressed (mute does not affect visibility), the clip
must be of type video or image, and the playhead must lie in the half-open
interval `[startOffset, startOffset + duration)`. -/
def visualActive (tracks : List Track) (anySolo : Bool) (currentTime : ℚ)
    (c : Clip) : Bool :=
  match tracks.find? (fun t => t.id = c.trackId) with
  | none => false
  | some track =>
      if anySolo && !track.isSolo then false
      else
        (decide (c.type = ClipType.video) || decide (c.type = ClipType.image))
          && decide (currentTime ≥ c.startOffset)
          && decide (currentTime < c.startOffset + c.duration)

/-- `getActiveVisualClips` from the Player: filter the project's clips by
`visualActive` and stable-sort them by the index of their track in the track
list (the JavaScript comparator `indexOf(a.trackId) - indexOf(b.trackId)`
under the stable `Array.prototype.sort`). -/
def getActiveVisualClips (ps : ProjectState) : List Clip :=
  let anySolo := ps.tracks.any (·.isSolo)
  let trackOrder := ps.tracks.map (·.id)
  (ps.clips.filter (visualActive ps.tracks anySolo ps.currentTime)).mergeSort
    (fun a b => jsIndexOf trackOrder a.trackId ≤ jsIndexOf trackOrder b.trackId)

/-- Effective audio gain applied to a clip's media element (the
`AudioTrackPlayer` and video-volume effects in the Player): 0 when the track
is muted or solo-suppressed, or the clip is reversed, or its speed ramp is
enabled; otherwise `min(1, max(0, (volume ?? 100) / 100))`. -/
def effectiveGain (tracks : List Track) (c : Clip) : ℚ :=
  let track := tracks.find? (fun t => t.id = c.trackId)
  let anySolo := tracks.any (·.isSolo)
  let isMuted : Bool :=
    match track with
    | some t => t.isMuted || (anySolo && !t.isSolo)
    | none => false
  if isMuted || reversedFlag c || rampEnabled c then 0
  else min 1 (max 0 ((c.properties.volume.getD 100) / 100))

lemma find?_track_of_nodup (tracks : List Track)
    (hnodup : (tracks.map Track.id).Nodup) (tr : Track) (htr : tr ∈ tracks)
    (cid : String) (hid : tr.id = cid) :
    tracks.find? (fun t => t.id = cid) = some tr := by
  induction tracks with
  | nil => cases htr
  | cons t ts ih =>
      rcases List.mem_cons.mp htr with heq | hmem
      · subst heq
        exact List.find?_cons_of_pos _ (by simp [hid])
      · have hne : ¬ t.id = cid := by
          intro hcontra
          have : t.id ∈ ts.map Track.id := by
            rw [hcontra, ← hid]; exact List.mem_map_of_mem Track.id hmem
          exact (List.nodup_cons.mp hnodup).1 this
        rw [List.find?_cons_of_neg _ (by simp [hne])]
        exact ih (List.nodup_cons.mp hnodup).2 hmem

lemma visualActive_iff (tracks : List Track)
    (hnodup : (tracks.map Track.id).Nodup) (t : ℚ) (c : Clip) :
    visualActive tracks (tracks.any (·.isSolo)) t c = true ↔
      ((c.type = ClipType.video ∨ c.type = ClipType.image) ∧
        (∃ tr ∈ tracks, tr.id = c.trackId ∧
          ((∃ u ∈ tracks, u.isSolo = true) → tr.isSolo = true)) ∧
        c.startOffset ≤ t ∧ t < c.startOffset + c.duration) := by
  unfold visualActive
  cases hfind : tracks.find? (fun tr => tr.id = c.trackId) with
  | none =>
      simp only [Bool.false_eq_true, false_iff]
      rintro ⟨-, ⟨tr, htr, hid, -⟩, -⟩
      have := find?_track_of_nodup tracks hnodup tr htr c.trackId hid
      rw [hfind] at this
      cases this
  | some track =>
      have htrmem : track ∈ tracks := List.mem_of_find?_eq_some hfind
      have hpred := List.find?_some hfind
      have hid : track.id = c.trackId := by simpa using hpred
      constructor
      · intro h
        have h' : (if (tracks.any (·.isSolo) && !track.isSolo) = true then false
            else (decide (c.type = ClipType.video) || decide (c.type = ClipType.image))
              && decide (t ≥ c.startOffset)
              && decide (t < c.startOffset + c.duration)) = true := h
        by_cases hsupp : (tracks.any (·.isSolo) && !track.isSolo) = true
        · rw [if_pos hsupp] at h'; cases h'
        · rw [if_neg hsupp] at h'
          simp only [Bool.and_eq_true, Bool.or_eq_true, decide_eq_true_eq] at h'
          refine ⟨h'.1.1, ⟨track, htrmem, hid, ?_⟩, h'.1.2, h'.2⟩
          intro hex
          have hany : tracks.any (·.isSolo) = true :=
            List.any_eq_true.mpr (by
              obtain ⟨u, hu, hs⟩ := hex; exact ⟨u, hu, hs⟩)
          cases hIs : track.isSolo with
          | true => rfl
          | false => exact absurd (by rw [hany, hIs]; rfl) hsupp
      · rintro ⟨htype, ⟨tr, htr, hid', hsolo⟩, hle, hlt⟩
        have htreq : tr = track := by
          have h2 := find?_track_of_nodup tracks hnodup tr htr c.trackId hid'
          rw [hfind] at h2
          exact (Option.some.inj h2).symm
        have hcond : (tracks.any (·.isSolo) && !track.isSolo) = false := by
          cases hany : tracks.any (·.isSolo) with
          | false => rfl
          | true =>
              have hex : ∃ u ∈ tracks, u.isSolo = true := by
                obtain ⟨u, hu, hs⟩ := List.any_eq_true.mp hany
                exact ⟨u, hu, hs⟩
              rw [← htreq, hsolo hex]
              rfl
        have hnotc : ¬ ((tracks.any (·.isSolo) && !track.isSolo) = true) := by
          rw [hcond]; exact Bool.false_ne_true
        show (if (tracks.any (·.isSolo) && !track.isSolo) = true then false
            else (decide (c.type = ClipType.video) || decide (c.type = ClipType.image))
              && decide (t ≥ c.startOffset)
              && decide (t < c.startOffset + c.duration)) = true
        rw [if_neg hnotc]
        simp only [Bool.and_eq_true, Bool.or_eq_true, decide_eq_true_eq]
        exact ⟨⟨by rcases htype with h | h <;> simp [h], hle⟩, hlt⟩

/-- Track "Video 1" of the C1 scenario. -/
def c1Track1 : Track := ⟨"1", TrackType.video, "Video 1", false, false, false, false⟩

/-- Track "Video 2" of the C1 scenario. -/
def c1Track2 : Track := ⟨"2", TrackType.video, "Video 2", false, false, false, false⟩

/-- Clip A of the C1 scenario: on track "Video 1" over `[0, 5)`. -/
def c1ClipA : Clip :=
  { id := "A", assetId := "assetA", name := "A", trackId := "1", startOffset := 0,
    duration := 5, sourceStart := 0, type := ClipType.video, src := "", selected := false,
    properties := {} }

/-- Clip B of the C1 scenario: on track "Video 2" over `[2, 7)`. -/
def c1ClipB : Clip :=
  { id := "B", assetId := "assetB", name := "B", trackId := "2", startOffset := 2,
    duration := 5, sourceStart := 0, type := ClipType.video, src := "", selected := false,
    properties := {} }

/-- The C1 scenario project at `t = 3`, with the clip list deliberately out of
track order so the sort is exercised. -/
def c1Demo : ProjectState :=
  { tracks := [c1Track1, c1Track2], clips := [c1ClipB, c1ClipA], markers := [],
    currentTime := 3, duration := 30, zoom := 20, isPlaying := false, aspect := "16:9" }

lemma c1_scenario_eval : getActiveVisualClips c1Demo = [c1ClipA, c1ClipB] := by
  have hA : visualActive c1Demo.tracks (c1Demo.tracks.any (·.isSolo))
      c1Demo.currentTime c1ClipA = true := by
    norm_num [visualActive, c1Demo, c1Track1, c1Track2, c1ClipA, List.find?]
  have hB : visualActive c1Demo.tracks (c1Demo.tracks.any (·.isSolo))
      c1Demo.currentTime c1ClipB = true := by
    norm_num [visualActive, c1Demo, c1Track1, c1Track2, c1ClipB, List.find?]
    decide
  have hfilter : c1Demo.clips.filter
      (visualActive c1Demo.tracks (c1Demo.tracks.any (·.isSolo)) c1Demo.currentTime)
      = [c1ClipB, c1ClipA] := by
    rw [show c1Demo.clips = [c1ClipB, c1ClipA] from rfl, List.filter_cons, List.filter_cons]
    rw [hA, hB]
    simp
  have hunfold : getActiveVisualClips c1Demo
      = (c1Demo.clips.filter
          (visualActive c1Demo.tracks (c1Demo.tracks.any (·.isSolo)) c1Demo.currentTime)).mergeSort
          (fun a b => decide (jsIndexOf (c1Demo.tracks.map Track.id) a.trackId
            ≤ jsIndexOf (c1Demo.tracks.map Track.id) b.trackId)) := rfl
  rw [hunfold, hfilter]
  norm_num [List.mergeSort, List.splitInTwo, List.merge, jsIndexOf, List.indexOf?,
    List.findIdx?, c1ClipA, c1ClipB, c1Demo, c1Track1, c1Track2]
  decide

/-- C1: for a project whose track ids are distinct, `getActiveVisualClips`
contains exactly the clips of type video or image whose track exists and is
not solo-suppressed and whose half-open interval
`[startOffset, startOffset + duration)` contains the playhead (track mute
plays no role); the result is ordered by the clip's track's position in the
track list; and in the scenario with clip A on "Video 1" over `[0,5)` and
clip B on "Video 2" over `[2,7)` at `t = 3`, the returned order is `[A, B]`. -/
theorem getActiveVisualClips_spec (ps : ProjectState)
    (hnodup : (ps.tracks.map Track.id).Nodup) :
    (∀ c : Clip, c ∈ getActiveVisualClips ps ↔
      (c ∈ ps.clips ∧
        ((c.type = ClipType.video ∨ c.type = ClipType.image) ∧
          (∃ tr ∈ ps.tracks, tr.id = c.trackId ∧
            ((∃ u ∈ ps.tracks, u.isSolo = true) → tr.isSolo = true)) ∧
          c.startOffset ≤ ps.currentTime ∧
          ps.currentTime < c.startOffset + c.duration))) ∧
    List.Pairwise (fun a b : Clip =>
        jsIndexOf (ps.tracks.map Track.id) a.trackId
          ≤ jsIndexOf (ps.tracks.map Track.id) b.trackId)
      (getActiveVisualClips ps) ∧
    getActiveVisualClips c1Demo = [c1ClipA, c1ClipB] := by
  refine ⟨?_, ?_, c1_scenario_eval⟩
  · intro c
    have hmem : c ∈ getActiveVisualClips ps ↔
        c ∈ ps.clips ∧
          visualActive ps.tracks (ps.tracks.any (·.isSolo)) ps.currentTime c = true := by
      unfold getActiveVisualClips
      rw [List.mem_mergeSort, List.mem_filter]
    rw [hmem, visualActive_iff ps.tracks hnodup ps.currentTime c]
  · have hunfold : getActiveVisualClips ps
        = (ps.clips.filter
            (visualActive ps.tracks (ps.tracks.any (·.isSolo)) ps.currentTime)).mergeSort
            (fun a b => decide (jsIndexOf (ps.tracks.map Track.id) a.trackId
              ≤ jsIndexOf (ps.tracks.map Track.id) b.trackId)) := rfl
    rw [hunfold]
    refine List.Pairwise.imp ?_ (List.sorted_mergeSort ?_ ?_ _)
    · intro a b h
      exact of_decide_eq_true h
    · intro a b c hab hbc
      exact decide_eq_true (le_trans (of_decide_eq_true hab) (of_decide_eq_true hbc))
    · intro a b
      rcases le_total (jsIndexOf (ps.tracks.map Track.id) a.trackId)
          (jsIndexOf (ps.tracks.map Track.id) b.trackId) with h | h
      · simp [h]
      · simp [h]

/-- Witness for C1 at the scenario project. -/
theorem getActiveVisualClips_spec_witness :
    (c1Demo.tracks.map Track.id).Nodup ∧
      getActiveVisualClips c1Demo = [c1ClipA, c1ClipB] :=
  ⟨by simp [c1Demo, c1Track1, c1Track2],
    (getActiveVisualClips_spec c1Demo (by simp [c1Demo, c1Track1, c1Track2])).2.2⟩

/-- Track "Audio 1" (id "3") with all flags off. -/
def c3Audio1 : Track := ⟨"3", TrackType.audio, "Audio 1", false, false, false, false⟩

/-- Track "Audio 2" (id "4") with `solo = true`. -/
def c3Audio2solo : Track := ⟨"4", TrackType.audio, "Audio 2", false, false, true, false⟩

/-- Track list in which "Audio 2" is soloed. -/
def c3SoloTracks : List Track := [c3Audio1, c3Audio2solo]

/-- An audio clip on track "Audio 1" with default volume. -/
def c3ClipOnA1 : Clip :=
  { id := "cA1", assetId := "asset1", name := "cA1", trackId := "3", startOffset := 0,
    duration := 5, sourceStart := 0, type := ClipType.audio, src := "", selected := false,
    properties := { volume := some 100 } }

/-- A single unsoloed, unmuted audio track. -/
def c3PlainTracks : List Track := [c3Audio1]

/-- An audio clip with `volume = 150` on the unsuppressed track "Audio 1". -/
def c3LoudClip : Clip :=
  { id := "cL", assetId := "asset2", name := "cL", trackId := "3", startOffset := 0,
    duration := 5, sourceStart := 0, type := ClipType.audio, src := "", selected := false,
    properties := { volume := some 150 } }

/-- C3 counterexample: the claim's gain formula `clamp(volume ?? 100, 0, 200)/100`
gives 3/2 for volume 150, but the code caps the media-element volume at 1
(`Math.min(1, ...)`), so the clip plays at gain 1, not 1.5. -/
theorem effectiveGain_volume150_counterexample :
    effectiveGain c3PlainTracks c3LoudClip = 1 ∧
      min 200 (max 0 (150 : ℚ)) / 100 = 3 / 2 ∧
      (1 : ℚ) ≠ 3 / 2 := by
  refine ⟨?_, by norm_num, by norm_num⟩
  norm_num [effectiveGain, reversedFlag, rampEnabled, c3PlainTracks, c3Audio1,
    c3LoudClip, List.find?]

/-- C3 (amended): the effective gain is 0 when the clip's track is muted, or
some track is soloed and the clip's track is not, or the clip is reversed, or
its speed ramp is enabled; otherwise it is `min(1, max(0, (volume ?? 100)/100))`
— the volume is effectively capped at 100, not 200.  In particular, with
"Audio 2" soloed, an active clip on "Audio 1" has effective gain 0. -/
theorem effectiveGain_spec (tracks : List Track)
    (hnodup : (tracks.map Track.id).Nodup) (c : Clip) (tr : Track)
    (htr : tr ∈ tracks) (hid : tr.id = c.trackId) :
    ((tr.isMuted = true ∨ ((∃ u ∈ tracks, u.isSolo = true) ∧ tr.isSolo = false) ∨
        reversedFlag c = true ∨ rampEnabled c = true) →
      effectiveGain tracks c = 0) ∧
    (tr.isMuted = false → ((∃ u ∈ tracks, u.isSolo = true) → tr.isSolo = true) →
      reversedFlag c = false → rampEnabled c = false →
      effectiveGain tracks c = min 1 (max 0 ((c.properties.volume.getD 100) / 100))) ∧
    effectiveGain c3SoloTracks c3ClipOnA1 = 0 := by
  have hfind : tracks.find? (fun t => t.id = c.trackId) = some tr :=
    find?_track_of_nodup tracks hnodup tr htr c.trackId hid
  have hunfold : effectiveGain tracks c
      = (if (match tracks.find? (fun t => t.id = c.trackId) with
            | some t => t.isMuted || (tracks.any (·.isSolo) && !t.isSolo)
            | none => false) || reversedFlag c || rampEnabled c then 0
          else min 1 (max 0 ((c.properties.volume.getD 100) / 100))) := rfl
  rw [hunfold, hfind]
  refine ⟨?_, ?_, ?_⟩
  · intro h
    have hcond : (tr.isMuted || (tracks.any (·.isSolo) && !tr.isSolo)
        || reversedFlag c || rampEnabled c) = true := by
      rcases h with h | ⟨⟨u, hu, hs⟩, hns⟩ | h | h
      · simp [h]
      · have hany : tracks.any (·.isSolo) = true := List.any_eq_true.mpr ⟨u, hu, hs⟩
        simp [hany, hns]
      · simp [h]
      · simp [h]
    rw [if_pos hcond]
  · intro hm hsolo hr hramp
    have hcond : (tr.isMuted || (tracks.any (·.isSolo) && !tr.isSolo)
        || reversedFlag c || rampEnabled c) = false := by
      have hsup : (tracks.any (·.isSolo) && !tr.isSolo) = false := by
        cases hany : tracks.any (·.isSolo) with
        | false => rfl
        | true =>
            obtain ⟨u, hu, hs⟩ := List.any_eq_true.mp hany
            rw [hsolo ⟨u, hu, hs⟩]
            rfl
      rw [hm, hsup, hr, hramp]
      rfl
    rw [if_neg (by rw [hcond]; exact Bool.false_ne_true)]
  · norm_num [effectiveGain, reversedFlag, rampEnabled, c3SoloTracks, c3Audio1,
      c3Audio2solo, c3ClipOnA1, List.find?]

/-- Witness for C3 at the soloed-track scenario. -/
theorem effectiveGain_spec_witness :
    (c3SoloTracks.map Track.id).Nodup ∧ c3Audio1 ∈ c3SoloTracks ∧
      c3Audio1.id = c3ClipOnA1.trackId ∧
      effectiveGain c3SoloTracks c3ClipOnA1 = 0 :=
  ⟨by simp [c3SoloTracks, c3Audio1, c3Audio2solo], by simp [c3SoloTracks],
    rfl,
    (effectiveGain_spec c3SoloTracks (by simp [c3SoloTracks, c3Audio1, c3Audio2solo])
      c3ClipOnA1 c3Audio1 (by simp [c3SoloTracks]) rfl).2.2⟩

/-! ## Transition Resolver (Player `getTransitionStyle`, `part_000`) -/

/-- The style object returned by `getTransitionStyle`, with the numeric
parameters of the CSS strings made explicit: `translateXPct` is the argument
of `translateX(...%)`, `scaleFactor` of `scale(...)`, and `clipInsetRightPct`
the right inset of `inset(0 ...% 0 0)`. -/
structure TransitionStyle where
  opacity : ℚ
  translateXPct : Option ℚ := none
  scaleFactor : Option ℚ := none
  clipInsetRightPct : Option ℚ := none
deriving DecidableEq, Repr

/-- `getTransitionStyle` from the Player: neutral when the clip has no
transition or the elapsed time has reached the transition's duration;
otherwise `progress = (currentTime - startOffset) / duration` (not clamped)
drives the per-type style. -/
def getTransitionStyle (currentTime : ℚ) (c : Clip) : TransitionStyle :=
  match c.transition with
  | none => { opacity := 1 }
  | some tr =>
      let timeIntoClip := currentTime - c.startOffset
      let duration := tr.duration
      if timeIntoClip ≥ duration then { opacity := 1 }
      else
        let progress := timeIntoClip / duration
        match tr.type with
        | TransitionType.fade => { opacity := progress }
        | TransitionType.dissolve => { opacity := progress }
        | TransitionType.slideLeft =>
            { opacity := 1, translateXPct := some ((1 - progress) * 100) }
        | TransitionType.slideRight =>
            { opacity := 1, translateXPct := some (-(1 - progress) * 100) }
        | TransitionType.zoom => { opacity := 1, scaleFactor := some progress }
        | TransitionType.wipe =>
            { opacity := 1, clipInsetRightPct := some (100 - progress * 100) }

/-- A video clip starting at 2 s with a 1 s fade entry transition. -/
def c7Clip : Clip :=
  { id := "f", assetId := "assetF", name := "f", trackId := "1", startOffset := 2,
    duration := 5, sourceStart := 0, type := ClipType.video, src := "", selected := false,
    properties := {}, transition := some ⟨TransitionType.fade, 1⟩ }

/-- C7 counterexample: for `t` one second before the clip's start, the
resolver's progress is `-1` — it is not clamped to `[0,1]` — and the fade
opacity is `-1`, outside `[0,1]`. -/
theorem getTransitionStyle_counterexample :
    (getTransitionStyle 1 c7Clip).opacity = -1 ∧ ((-1 : ℚ) < 0) := by
  constructor
  · norm_num [getTransitionStyle, c7Clip]
  · norm_num

/-- C7 (amended): for a clip with an entry transition of positive duration and
any time `t` at or after the clip's start (the only times at which the player
applies the resolver, since it styles active clips only), the resolver is
neutral once `t - startOffset ≥ duration`, the progress
`(t - startOffset)/duration` lies in `[0, 1)` otherwise, and the returned
opacity always lies in `[0, 1]`; for `t` before the clip's start the progress
is negative, not clamped (see the counterexample). -/
theorem getTransitionStyle_spec (c : Clip) (tr : Transition)
    (htr : c.transition = some tr) (hdur : 0 < tr.duration) (t : ℚ)
    (ht : c.startOffset ≤ t) :
    (t - c.startOffset ≥ tr.duration → getTransitionStyle t c = { opacity := 1 }) ∧
    (t - c.startOffset < tr.duration →
      0 ≤ (t - c.startOffset) / tr.duration ∧ (t - c.startOffset) / tr.duration < 1) ∧
    0 ≤ (getTransitionStyle t c).opacity ∧ (getTransitionStyle t c).opacity ≤ 1 := by
  have hunfold : getTransitionStyle t c
      = (if t - c.startOffset ≥ tr.duration then { opacity := 1 }
          else
            match tr.type with
            | TransitionType.fade => { opacity := (t - c.startOffset) / tr.duration }
            | TransitionType.dissolve => { opacity := (t - c.startOffset) / tr.duration }
            | TransitionType.slideLeft =>
                { opacity := 1,
                  translateXPct := some ((1 - (t - c.startOffset) / tr.duration) * 100) }
            | TransitionType.slideRight =>
                { opacity := 1,
                  translateXPct := some (-(1 - (t - c.startOffset) / tr.duration) * 100) }
            | TransitionType.zoom =>
                { opacity := 1, scaleFactor := some ((t - c.startOffset) / tr.duration) }
            | TransitionType.wipe =>
                { opacity := 1,
                  clipInsetRightPct :=
                    some (100 - (t - c.startOffset) / tr.duration * 100) }) := by
    unfold getTransitionStyle
    rw [htr]
  have hprog : t - c.startOffset < tr.duration →
      0 ≤ (t - c.startOffset) / tr.duration ∧ (t - c.startOffset) / tr.duration < 1 := by
    intro hlt
    constructor
    · exact div_nonneg (by linarith) (le_of_lt hdur)
    · exact (div_lt_one hdur).mpr hlt
  refine ⟨?_, hprog, ?_⟩
  · intro hge
    rw [hunfold, if_pos hge]
  · rw [hunfold]
    by_cases hge : t - c.startOffset ≥ tr.duration
    · rw [if_pos hge]
      norm_num
    · rw [if_neg hge]
      have h01 := hprog (lt_of_not_ge hge)
      cases tr.type
      · exact ⟨h01.1, h01.2.le⟩
      · exact ⟨by norm_num, le_refl 1⟩
      · exact ⟨by norm_num, le_refl 1⟩
      · exact ⟨by norm_num, le_refl 1⟩
      · exact ⟨by norm_num, le_refl 1⟩
      · exact ⟨h01.1, h01.2.le⟩

/-- Witness for C7: the fade clip at `t = 2.5`, halfway through its 1 s
transition, has opacity within `[0,1]`. -/
theorem getTransitionStyle_spec_witness :
    c7Clip.transition = some ⟨TransitionType.fade, 1⟩ ∧ (0 : ℚ) < 1 ∧
      c7Clip.startOffset ≤ (5 / 2 : ℚ) ∧
      (0 ≤ (getTransitionStyle (5 / 2) c7Clip).opacity ∧
        (getTransitionStyle (5 / 2) c7Clip).opacity ≤ 1) :=
  ⟨rfl, by norm_num, by norm_num [c7Clip],
    (getTransitionStyle_spec c7Clip ⟨TransitionType.fade, 1⟩ rfl (by norm_num)
      (5 / 2) (by norm_num [c7Clip])).2.2⟩

/-! ## Timeline Edit Model: split at playhead (`splitClip` in the App,
`part_003`) -/

/-- The first fragment of a split: the selected clip truncated to
`duration = t - startOffset`, deselected. -/
def splitPart1 (sel : Clip) (t : ℚ) : Clip :=
  { sel with duration := t - sel.startOffset, selected := false }

/-- The second fragment of a split: a fresh id, starting at `t`, with
`sourceStart` advanced by the split offset, the remaining duration, selected,
and no inherited transition. -/
def splitPart2 (newId : String) (sel : Clip) (t : ℚ) : Clip :=
  { sel with
    id := newId,
    startOffset := t,
    sourceStart := sel.sourceStart + (t - sel.startOffset),
    duration := sel.duration - (t - sel.startOffset),
    selected := true,
    transition := none }

/-- `splitClip` from the App: find the selected clip; a no-op unless the
playhead is strictly inside its interval; otherwise remove it and append the
two fragments.  The source draws the fresh id from `Math.random()`; here it is
the parameter `newId`. -/
def splitClip (newId : String) (p : ProjectState) : ProjectState :=
  match p.clips.find? (·.selected) with
  | none => p
  | some sel =>
      if p.currentTime ≤ sel.startOffset ∨ p.currentTime ≥ sel.startOffset + sel.duration
      then p
      else
        { p with clips := p.clips.filter (fun c => ¬ c.id = sel.id)
            ++ [splitPart1 sel p.currentTime, splitPart2 newId sel p.currentTime] }

/-- C2: with a selected clip, `splitClip` is a no-op unless the playhead is
strictly inside the clip's interval; when it is, the selected clip is replaced
by two fragments that exactly partition the original interval: the first keeps
`startOffset` and `sourceStart` with `duration = t - startOffset`, the second
starts at `t` with `sourceStart` advanced by `t - startOffset` and the
remaining duration (their durations sum to the original), and the second
carries no inherited entry transition. -/
theorem splitClip_spec (newId : String) (p : ProjectState) (sel : Clip)
    (hfind : p.clips.find? (·.selected) = some sel) :
    ((p.currentTime ≤ sel.startOffset ∨ sel.startOffset + sel.duration ≤ p.currentTime) →
      splitClip newId p = p) ∧
    (sel.startOffset < p.currentTime → p.currentTime < sel.startOffset + sel.duration →
      ((splitClip newId p).clips
          = p.clips.filter (fun c => ¬ c.id = sel.id)
            ++ [splitPart1 sel p.currentTime, splitPart2 newId sel p.currentTime] ∧
        (splitPart1 sel p.currentTime).startOffset = sel.startOffset ∧
        (splitPart1 sel p.currentTime).sourceStart = sel.sourceStart ∧
        (splitPart1 sel p.currentTime).duration = p.currentTime - sel.startOffset ∧
        (splitPart2 newId sel p.currentTime).startOffset = p.currentTime ∧
        (splitPart2 newId sel p.currentTime).sourceStart
          = sel.sourceStart + (p.currentTime - sel.startOffset) ∧
        (splitPart1 sel p.currentTime).duration + (splitPart2 newId sel p.currentTime).duration
          = sel.duration ∧
        (splitPart2 newId sel p.currentTime).transition = none)) := by
  have hunfold : splitClip newId p
      = (if p.currentTime ≤ sel.startOffset ∨ p.currentTime ≥ sel.startOffset + sel.duration
          then p
          else
            { p with clips := p.clips.filter (fun c => ¬ c.id = sel.id)
                ++ [splitPart1 sel p.currentTime, splitPart2 newId sel p.currentTime] }) := by
    unfold splitClip
    rw [hfind]
  constructor
  · intro h
    rw [hunfold, if_pos h]
  · intro h1 h2
    have hnot : ¬ (p.currentTime ≤ sel.startOffset ∨
        p.currentTime ≥ sel.startOffset + sel.duration) := by
      push_neg
      exact ⟨h1, h2⟩
    rw [hunfold, if_neg hnot]
    refine ⟨rfl, by simp [splitPart1], by simp [splitPart1], by simp [splitPart1],
      by simp [splitPart2], by simp [splitPart2], ?_, by simp [splitPart2]⟩
    simp only [splitPart1, splitPart2]
    ring

/-- The selected clip of the C2/C10 split demo: `[0, 6)` with `sourceStart = 1`. -/
def c2Sel : Clip :=
  { id := "S", assetId := "assetS", name := "S", trackId := "1", startOffset := 0,
    duration := 6, sourceStart := 1, type := ClipType.video, src := "", selected := true,
    properties := {}, transition := some ⟨TransitionType.fade, 1⟩ }

/-- An unselected bystander clip for the split demo. -/
def c2Other : Clip :=
  { id := "O", assetId := "assetO", name := "O", trackId := "2", startOffset := 10,
    duration := 3, sourceStart := 0, type := ClipType.video, src := "", selected := false,
    properties := {} }

/-- The C2/C10 demo project: playhead at 4, strictly inside the selected clip. -/
def c2Demo : ProjectState :=
  { tracks := [c1Track1, c1Track2], clips := [c2Other, c2Sel], markers := [],
    currentTime := 4, duration := 30, zoom := 20, isPlaying := false, aspect := "16:9" }

lemma c2Demo_find : c2Demo.clips.find? (·.selected) = some c2Sel := by
  norm_num [c2Demo, c2Other, c2Sel, List.find?]

/-- Witness for C2 at the demo split. -/
theorem splitClip_spec_witness :
    c2Demo.clips.find? (·.selected) = some c2Sel ∧
      c2Sel.startOffset < c2Demo.currentTime ∧
      c2Demo.currentTime < c2Sel.startOffset + c2Sel.duration ∧
      ((splitClip "S2" c2Demo).clips
          = c2Demo.clips.filter (fun c => ¬ c.id = c2Sel.id)
            ++ [splitPart1 c2Sel c2Demo.currentTime, splitPart2 "S2" c2Sel c2Demo.currentTime] ∧
        (splitPart1 c2Sel c2Demo.currentTime).startOffset = c2Sel.startOffset ∧
        (splitPart1 c2Sel c2Demo.currentTime).sourceStart = c2Sel.sourceStart ∧
        (splitPart1 c2Sel c2Demo.currentTime).duration
          = c2Demo.currentTime - c2Sel.startOffset ∧
        (splitPart2 "S2" c2Sel c2Demo.currentTime).startOffset = c2Demo.currentTime ∧
        (splitPart2 "S2" c2Sel c2Demo.currentTime).sourceStart
          = c2Sel.sourceStart + (c2Demo.currentTime - c2Sel.startOffset) ∧
        (splitPart1 c2Sel c2Demo.currentTime).duration
            + (splitPart2 "S2" c2Sel c2Demo.currentTime).duration = c2Sel.duration ∧
        (splitPart2 "S2" c2Sel c2Demo.currentTime).transition = none) :=
  ⟨c2Demo_find, by norm_num [c2Demo, c2Sel], by norm_num [c2Demo, c2Sel],
    (splitClip_spec "S2" c2Demo c2Sel c2Demo_find).2
      (by norm_num [c2Demo, c2Sel]) (by norm_num [c2Demo, c2Sel])⟩

/-- C10: a valid split changes only the selected clip's entry in the clip
list — every other clip survives unchanged (in its original relative order,
through the id filter) and every clip of the result is either an original
clip or one of the two fragments — while the project's tracks, markers,
`currentTime`, `duration`, `zoom`, `isPlaying` and aspect ratio are all
unchanged. -/
theorem splitClip_frame (newId : String) (p : ProjectState) (sel : Clip)
    (hfind : p.clips.find? (·.selected) = some sel)
    (h1 : sel.startOffset < p.currentTime)
    (h2 : p.currentTime < sel.startOffset + sel.duration) :
    (splitClip newId p).tracks = p.tracks ∧
    (splitClip newId p).markers = p.markers ∧
    (splitClip newId p).currentTime = p.currentTime ∧
    (splitClip newId p).duration = p.duration ∧
    (splitClip newId p).zoom = p.zoom ∧
    (splitClip newId p).isPlaying = p.isPlaying ∧
    (splitClip newId p).aspect = p.aspect ∧
    (splitClip newId p).clips
      = p.clips.filter (fun c => ¬ c.id = sel.id)
        ++ [splitPart1 sel p.currentTime, splitPart2 newId sel p.currentTime] ∧
    (∀ c ∈ p.clips, ¬ c.id = sel.id → c ∈ (splitClip newId p).clips) ∧
    (∀ c ∈ (splitClip newId p).clips,
      c ∈ p.clips ∨ c = splitPart1 sel p.currentTime ∨ c = splitPart2 newId sel p.currentTime) := by
  have hnot : ¬ (p.currentTime ≤ sel.startOffset ∨
      p.currentTime ≥ sel.startOffset + sel.duration) := by
    push_neg
    exact ⟨h1, h2⟩
  have hif : splitClip newId p
      = (if p.currentTime ≤ sel.startOffset ∨ p.currentTime ≥ sel.startOffset + sel.duration
          then p
          else
            { p with clips := p.clips.filter (fun c => ¬ c.id = sel.id)
                ++ [splitPart1 sel p.currentTime, splitPart2 newId sel p.currentTime] }) := by
    unfold splitClip
    rw [hfind]
  have hunfold : splitClip newId p
      = { p with clips := p.clips.filter (fun c => ¬ c.id = sel.id)
          ++ [splitPart1 sel p.currentTime, splitPart2 newId sel p.currentTime] } := by
    rw [hif, if_neg hnot]
  rw [hunfold]
  refine ⟨rfl, rfl, rfl, rfl, rfl, rfl, rfl, rfl, ?_, ?_⟩
  · intro c hc hne
    exact List.mem_append_left _ (List.mem_filter.mpr ⟨hc, by simpa using hne⟩)
  · intro c hc
    rcases List.mem_append.mp hc with hf | hpair
    · exact Or.inl (List.mem_filter.mp hf).1
    · simp only [List.mem_cons, List.not_mem_nil, or_false] at hpair
      rcases hpair with h | h
      · exact Or.inr (Or.inl h)
      · exact Or.inr (Or.inr h)

/-- Witness for C10 at the demo split: the bystander clip survives unchanged
and the non-clip project fields are untouched. -/
theorem splitClip_frame_witness :
    c2Demo.clips.find? (·.selected) = some c2Sel ∧
      c2Sel.startOffset < c2Demo.currentTime ∧
      c2Demo.currentTime < c2Sel.startOffset + c2Sel.duration ∧
      (splitClip "S2" c2Demo).tracks = c2Demo.tracks ∧
      (splitClip "S2" c2Demo).duration = c2Demo.duration :=
  ⟨c2Demo_find, by norm_num [c2Demo, c2Sel], by norm_num [c2Demo, c2Sel],
    (splitClip_frame "S2" c2Demo c2Sel c2Demo_find
      (by norm_num [c2Demo, c2Sel]) (by norm_num [c2Demo, c2Sel])).1,
    (splitClip_frame "S2" c2Demo c2Sel c2Demo_find
      (by norm_num [c2Demo, c2Sel]) (by norm_num [c2Demo, c2Sel])).2.2.2.1⟩

/-! ## Playback clock (the `loop` of the playback `useEffect`, `part_003`) -/

/-- The speed multiplier the playback loop derives from a selected clip with
an enabled speed ramp: the arithmetic mean of the ramp points' speeds
(JavaScript `reduce((acc, p) => acc + p.speed, 0) / length`), and 1 when no
such clip exists or the point list is empty. -/
def tickSpeedMultiplier (p : ProjectState) : ℚ :=
  match p.clips.find? (fun c => c.selected && rampEnabled c) with
  | none => 1
  | some c =>
      match c.properties.speedRamp with
      | none => 1
      | some ramp =>
          if ramp.points.length > 0 then
            (ramp.points.foldl (fun acc pt => acc + pt.speed) 0) / (ramp.points.length : ℚ)
          else 1

/-- One tick of the playback clock, for an elapsed wall-time `delta` seconds:
a no-op when not playing; otherwise `currentTime` advances by
`delta * speedMultiplier`, and reaching or passing `duration` clamps
`currentTime` to `duration` and stops playback in the same transition. -/
def playbackTick (delta : ℚ) (p : ProjectState) : ProjectState :=
  if p.isPlaying = false then p
  else
    let nextTime := p.currentTime + delta * tickSpeedMultiplier p
    if nextTime ≥ p.duration then { p with isPlaying := false, currentTime := p.duration }
    else { p with currentTime := nextTime }

lemma foldl_speed_nonneg :
    ∀ (pts : List RampPoint) (acc : ℚ), 0 ≤ acc → (∀ pt ∈ pts, 0 ≤ pt.speed) →
      0 ≤ pts.foldl (fun a pt => a + pt.speed) acc := by
  intro pts
  induction pts with
  | nil => intro acc hacc _; exact hacc
  | cons q rest ih =>
      intro acc hacc hpts
      exact ih (acc + q.speed) (by
          have := hpts q (List.mem_cons_self q rest)
          linarith)
        (fun pt hpt => hpts pt (List.mem_cons_of_mem q hpt))

lemma tickSpeedMultiplier_nonneg (p : ProjectState)
    (hspeeds : ∀ c ∈ p.clips, ∀ r, c.properties.speedRamp = some r →
      ∀ pt ∈ r.points, 0 ≤ pt.speed) :
    0 ≤ tickSpeedMultiplier p := by
  cases hfind : p.clips.find? (fun c => c.selected && rampEnabled c) with
  | none => norm_num [tickSpeedMultiplier, hfind]
  | some c =>
      cases hramp : c.properties.speedRamp with
      | none => norm_num [tickSpeedMultiplier, hfind, hramp]
      | some ramp =>
          have hc : c ∈ p.clips := List.mem_of_find?_eq_some hfind
          have hpts := hspeeds c hc ramp hramp
          have hval : tickSpeedMultiplier p
              = if ramp.points.length > 0
                then (ramp.points.foldl (fun acc pt => acc + pt.speed) 0)
                  / (ramp.points.length : ℚ)
                else 1 := by
            simp only [tickSpeedMultiplier, hfind, hramp]
          rw [hval]
          by_cases hlen : ramp.points.length > 0
          · rw [if_pos hlen]
            exact div_nonneg (foldl_speed_nonneg ramp.points 0 le_rfl hpts)
              (by positivity)
          · rw [if_neg hlen]
            norm_num

/-- C8: while playing, provided the current time respects the
`currentTime ≤ duration` invariant, the elapsed wall-time is nonnegative and
every stored ramp speed is nonnegative, a playback tick advances
`currentTime` monotonically; whenever the advanced time would reach or exceed
the project duration, the same transition sets `currentTime` exactly to
`duration` and `isPlaying` to `false`; and the tick never produces
`currentTime > duration`. -/
theorem playbackTick_spec (delta : ℚ) (p : ProjectState)
    (hplay : p.isPlaying = true) (hdelta : 0 ≤ delta)
    (hinv : p.currentTime ≤ p.duration)
    (hspeeds : ∀ c ∈ p.clips, ∀ r, c.properties.speedRamp = some r →
      ∀ pt ∈ r.points, 0 ≤ pt.speed) :
    p.currentTime ≤ (playbackTick delta p).currentTime ∧
    (p.currentTime + delta * tickSpeedMultiplier p ≥ p.duration →
      (playbackTick delta p).currentTime = p.duration ∧
        (playbackTick delta p).isPlaying = false) ∧
    (playbackTick delta p).currentTime ≤ p.duration := by
  have hmult : 0 ≤ tickSpeedMultiplier p := tickSpeedMultiplier_nonneg p hspeeds
  have hadv : 0 ≤ delta * tickSpeedMultiplier p := mul_nonneg hdelta hmult
  have hnotstop : ¬ (p.isPlaying = false) := by simp [hplay]
  have hunfold : playbackTick delta p
      = (if p.currentTime + delta * tickSpeedMultiplier p ≥ p.duration
          then { p with isPlaying := false, currentTime := p.duration }
          else { p with currentTime := p.currentTime + delta * tickSpeedMultiplier p }) := by
    unfold playbackTick
    rw [if_neg hnotstop]
  by_cases hend : p.currentTime + delta * tickSpeedMultiplier p ≥ p.duration
  · rw [hunfold, if_pos hend]
    exact ⟨hinv, fun _ => ⟨rfl, rfl⟩, le_rfl⟩
  · rw [hunfold, if_neg hend]
    refine ⟨?_, fun h => absurd h hend, ?_⟩
    · show p.currentTime ≤ p.currentTime + delta * tickSpeedMultiplier p
      linarith
    · show p.currentTime + delta * tickSpeedMultiplier p ≤ p.duration
      exact le_of_lt (lt_of_not_ge hend)

/-- A minimal playing project for the C8 witness. -/
def c8Demo : ProjectState :=
  { tracks := [], clips := [], markers := [], currentTime := 0, duration := 30,
    zoom := 20, isPlaying := true, aspect := "16:9" }

/-- Witness for C8 at a playing project and a one-second tick. -/
theorem playbackTick_spec_witness :
    c8Demo.isPlaying = true ∧ (0 : ℚ) ≤ 1 ∧
      c8Demo.currentTime ≤ c8Demo.duration ∧
      c8Demo.currentTime ≤ (playbackTick 1 c8Demo).currentTime ∧
      (playbackTick 1 c8Demo).currentTime ≤ c8Demo.duration :=
  ⟨rfl, by norm_num, by norm_num [c8Demo],
    (playbackTick_spec 1 c8Demo rfl (by norm_num) (by norm_num [c8Demo])
      (by intro c hc; simp [c8Demo] at hc)).1,
    (playbackTick_spec 1 c8Demo rfl (by norm_num) (by norm_num [c8Demo])
      (by intro c hc; simp [c8Demo] at hc)).2.2⟩

/-! ## Freeze frame (`handleFreezeFrame` in the App, `part_003`) -/

/-- The 2-second still-image clip inserted at the playhead by freeze-frame.
The captured frame's data URL and the fresh ids come from the environment. -/
def freezeImageClip (newImageClipId newAssetId dataUrl : String) (sel : Clip)
    (t : ℚ) : Clip :=
  { id := newImageClipId, assetId := newAssetId, name := sel.name ++ "_freeze.jpg",
    trackId := sel.trackId, startOffset := t, duration := 2, sourceStart := 0,
    type := ClipType.image, src := dataUrl, selected := true, properties := {} }

/-- The remainder of the frozen clip, moved to start at `t + 2`. -/
def freezePart2 (part2Id : String) (sel : Clip) (t : ℚ) : Clip :=
  { sel with
    id := part2Id,
    startOffset := t + 2,
    sourceStart := sel.sourceStart + (t - sel.startOffset),
    duration := sel.duration - (t - sel.startOffset),
    selected := false }

/-- `handleFreezeFrame` from the App (its state transition, run once the frame
capture has succeeded): requires a selected video clip under the playhead;
splits it at `t`, inserts the 2-second image clip at `[t, t+2)`, moves the
remainder to `t + 2`, and shifts the clips whose `startOffset` is at or after
`t + 2` forward by 2 seconds, all in one state update. -/
def handleFreezeFrame (newAssetId newImageClipId part2Id dataUrl : String)
    (p : ProjectState) : ProjectState :=
  match p.clips.find? (fun c => c.selected && c.type = ClipType.video) with
  | none => p
  | some sel =>
      if p.currentTime < sel.startOffset ∨ p.currentTime > sel.startOffset + sel.duration
      then p
      else
        let originalEnd := sel.startOffset + sel.duration
        { p with
          clips :=
            (p.clips.filter
                (fun c => ¬ c.id = sel.id ∧ c.startOffset < p.currentTime + 2))
              ++ [splitPart1 sel p.currentTime,
                  freezeImageClip newImageClipId newAssetId dataUrl sel p.currentTime,
                  freezePart2 part2Id sel p.currentTime]
              ++ ((p.clips.filter
                    (fun c => ¬ c.id = sel.id ∧ c.startOffset ≥ p.currentTime + 2)).map
                  (fun c => { c with startOffset := c.startOffset + 2 })),
          duration := max p.duration (originalEnd + 2) }

/-- The selected video clip `[0, 6)` of the C6 demo. -/
def c6Sel : Clip :=
  { id := "V", assetId := "assetV", name := "V", trackId := "1", startOffset := 0,
    duration := 6, sourceStart := 0, type := ClipType.video, src := "", selected := true,
    properties := {} }

/-- A bystander clip starting at 5 — at or after the playhead `t = 4`, but
before `t + 2 = 6`. -/
def c6W : Clip :=
  { id := "W", assetId := "assetW", name := "W", trackId := "2", startOffset := 5,
    duration := 2, sourceStart := 0, type := ClipType.video, src := "", selected := false,
    properties := {} }

/-- The C6 demo project with the playhead at 4, inside the selected clip. -/
def c6Demo : ProjectState :=
  { tracks := [c1Track1, c1Track2], clips := [c6Sel, c6W], markers := [],
    currentTime := 4, duration := 30, zoom := 20, isPlaying := false, aspect := "16:9" }

lemma c6_result_clips :
    (handleFreezeFrame "fa" "fi" "fp" "url" c6Demo).clips
      = [c6W, splitPart1 c6Sel 4, freezeImageClip "fi" "fa" "url" c6Sel 4,
          freezePart2 "fp" c6Sel 4] := by
  have hfind : c6Demo.clips.find? (fun c => c.selected && c.type = ClipType.video)
      = some c6Sel := by
    norm_num [c6Demo, c6Sel, c6W, List.find?]
  have hnot : ¬ (c6Demo.currentTime < c6Sel.startOffset ∨
      c6Demo.currentTime > c6Sel.startOffset + c6Sel.duration) := by
    norm_num [c6Demo, c6Sel]
  have hif : handleFreezeFrame "fa" "fi" "fp" "url" c6Demo
      = (if c6Demo.currentTime < c6Sel.startOffset ∨
            c6Demo.currentTime > c6Sel.startOffset + c6Sel.duration
          then c6Demo
          else
            { c6Demo with
              clips :=
                (c6Demo.clips.filter
                    (fun c => ¬ c.id = c6Sel.id ∧ c.startOffset < c6Demo.currentTime + 2))
                  ++ [splitPart1 c6Sel c6Demo.currentTime,
                      freezeImageClip "fi" "fa" "url" c6Sel c6Demo.currentTime,
                      freezePart2 "fp" c6Sel c6Demo.currentTime]
                  ++ ((c6Demo.clips.filter
                        (fun c => ¬ c.id = c6Sel.id ∧ c.startOffset ≥ c6Demo.currentTime + 2)).map
                      (fun c => { c with startOffset := c.startOffset + 2 })),
              duration := max c6Demo.duration (c6Sel.startOffset + c6Sel.duration + 2) }) := by
    unfold handleFreezeFrame
    rw [hfind]
  rw [hif, if_neg hnot]
  show (c6Demo.clips.filter _) ++ _ ++ ((c6Demo.clips.filter _).map _) = _
  have h1 : c6Demo.clips.filter
      (fun c => ¬ c.id = c6Sel.id ∧ c.startOffset < c6Demo.currentTime + 2) = [c6W] := by
    norm_num [c6Demo, c6Sel, c6W, List.filter_cons]
    decide
  have h2 : c6Demo.clips.filter
      (fun c => ¬ c.id = c6Sel.id ∧ c.startOffset ≥ c6Demo.currentTime + 2) = [] := by
    norm_num [c6Demo, c6Sel, c6W, List.filter_cons]
  rw [h1, h2]
  rfl

/-- C6 counterexample: at `t = 4` inside the selected clip `[0,6)`, the clip
starting at 5 is at or after the insertion point, but the code shifts only
clips with `startOffset ≥ t + 2`, so it is left at 5, not moved to 7 as the
claim requires. -/
theorem handleFreezeFrame_ripple_counterexample :
    c6W ∈ c6Demo.clips ∧ ¬ c6W.id = c6Sel.id ∧
      c6Demo.currentTime ≤ c6W.startOffset ∧
      (∀ c ∈ (handleFreezeFrame "fa" "fi" "fp" "url" c6Demo).clips,
        c.id = c6W.id → c.startOffset = 5) ∧
      ¬ ((5 : ℚ) = c6W.startOffset + 2) := by
  refine ⟨by simp [c6Demo], by simp [c6W, c6Sel], by norm_num [c6Demo, c6W], ?_,
    by norm_num [c6W]⟩
  intro c hc hid
  rw [c6_result_clips] at hc
  simp only [List.mem_cons, List.not_mem_nil, or_false] at hc
  rcases hc with rfl | rfl | rfl | rfl
  · norm_num [c6W]
  · exact absurd hid (by simp [splitPart1, c6Sel, c6W])
  · exact absurd hid (by simp [freezeImageClip, c6W])
  · exact absurd hid (by simp [freezePart2, c6Sel, c6W])

/-- C6 (amended): freeze-frame at playhead `t` over a selected video clip
splits it at `t`, inserts a 2-second image clip occupying `[t, t+2)`, moves
the remainder to start at `t + 2`, and — in the same single state
transition — shifts every other clip whose `startOffset` is at or after
`t + 2` (not `t`) forward by exactly 2 seconds, while every other clip with
`startOffset < t + 2` is left unchanged; the project duration is extended to
at least the original clip end plus 2. -/
theorem handleFreezeFrame_spec (newAssetId newImageClipId part2Id dataUrl : String)
    (p : ProjectState) (sel : Clip)
    (hfind : p.clips.find? (fun c => c.selected && c.type = ClipType.video) = some sel)
    (h1 : sel.startOffset ≤ p.currentTime)
    (h2 : p.currentTime ≤ sel.startOffset + sel.duration) :
    ((handleFreezeFrame newAssetId newImageClipId part2Id dataUrl p).clips
        = (p.clips.filter
            (fun c => ¬ c.id = sel.id ∧ c.startOffset < p.currentTime + 2))
          ++ [splitPart1 sel p.currentTime,
              freezeImageClip newImageClipId newAssetId dataUrl sel p.currentTime,
              freezePart2 part2Id sel p.currentTime]
          ++ ((p.clips.filter
                (fun c => ¬ c.id = sel.id ∧ c.startOffset ≥ p.currentTime + 2)).map
              (fun c => { c with startOffset := c.startOffset + 2 }))) ∧
    (splitPart1 sel p.currentTime).startOffset = sel.startOffset ∧
    (splitPart1 sel p.currentTime).duration = p.currentTime - sel.startOffset ∧
    (freezeImageClip newImageClipId newAssetId dataUrl sel p.currentTime).startOffset
      = p.currentTime ∧
    (freezeImageClip newImageClipId newAssetId dataUrl sel p.currentTime).duration = 2 ∧
    (freezeImageClip newImageClipId newAssetId dataUrl sel p.currentTime).type
      = ClipType.image ∧
    (freezePart2 part2Id sel p.currentTime).startOffset = p.currentTime + 2 ∧
    (splitPart1 sel p.currentTime).duration + (freezePart2 part2Id sel p.currentTime).duration
      = sel.duration ∧
    (∀ c ∈ p.clips, ¬ c.id = sel.id → p.currentTime + 2 ≤ c.startOffset →
      { c with startOffset := c.startOffset + 2 }
        ∈ (handleFreezeFrame newAssetId newImageClipId part2Id dataUrl p).clips) ∧
    (∀ c ∈ p.clips, ¬ c.id = sel.id → c.startOffset < p.currentTime + 2 →
      c ∈ (handleFreezeFrame newAssetId newImageClipId part2Id dataUrl p).clips) ∧
    (handleFreezeFrame newAssetId newImageClipId part2Id dataUrl p).duration
      = max p.duration (sel.startOffset + sel.duration + 2) ∧
    (handleFreezeFrame newAssetId newImageClipId part2Id dataUrl p).tracks = p.tracks := by
  have hnot : ¬ (p.currentTime < sel.startOffset ∨
      p.currentTime > sel.startOffset + sel.duration) := by
    push_neg
    exact ⟨h1, h2⟩
  have hif : handleFreezeFrame newAssetId newImageClipId part2Id dataUrl p
      = (if p.currentTime < sel.startOffset ∨ p.currentTime > sel.startOffset + sel.duration
          then p
          else
            { p with
              clips :=
                (p.clips.filter
                    (fun c => ¬ c.id = sel.id ∧ c.startOffset < p.currentTime + 2))
                  ++ [splitPart1 sel p.currentTime,
                      freezeImageClip newImageClipId newAssetId dataUrl sel p.currentTime,
                      freezePart2 part2Id sel p.currentTime]
                  ++ ((p.clips.filter
                        (fun c => ¬ c.id = sel.id ∧ c.startOffset ≥ p.currentTime + 2)).map
                      (fun c => { c with startOffset := c.startOffset + 2 })),
              duration := max p.duration (sel.startOffset + sel.duration + 2) }) := by
    unfold handleFreezeFrame
    rw [hfind]
  have hunfold := hif.trans (if_neg hnot)
  refine ⟨by rw [hunfold], by simp [splitPart1], by simp [splitPart1],
    by simp [freezeImageClip], by simp [freezeImageClip], by simp [freezeImageClip],
    by simp [freezePart2], ?_, ?_, ?_, by rw [hunfold], by rw [hunfold]⟩
  · simp only [splitPart1, freezePart2]
    ring
  · intro c hc hne hge
    rw [hunfold]
    refine List.mem_append_right _ ?_
    exact List.mem_map_of_mem _ (List.mem_filter.mpr ⟨hc, by simp [hne, hge]⟩)
  · intro c hc hne hlt
    rw [hunfold]
    refine List.mem_append_left _ (List.mem_append_left _ ?_)
    exact List.mem_filter.mpr ⟨hc, by simp [hne, hlt]⟩

/-- Witness for C6 at the demo project. -/
theorem handleFreezeFrame_spec_witness :
    c6Demo.clips.find? (fun c => c.selected && c.type = ClipType.video) = some c6Sel ∧
      c6Sel.startOffset ≤ c6Demo.currentTime ∧
      c6Demo.currentTime ≤ c6Sel.startOffset + c6Sel.duration ∧
      (freezeImageClip "fi" "fa" "url" c6Sel c6Demo.currentTime).startOffset
        = c6Demo.currentTime ∧
      (freezePart2 "fp" c6Sel c6Demo.currentTime).startOffset = c6Demo.currentTime + 2 :=
  ⟨by norm_num [c6Demo, c6Sel, c6W, List.find?], by norm_num [c6Demo, c6Sel],
    by norm_num [c6Demo, c6Sel],
    (handleFreezeFrame_spec "fa" "fi" "fp" "url" c6Demo c6Sel
      (by norm_num [c6Demo, c6Sel, c6W, List.find?]) (by norm_num [c6Demo, c6Sel])
      (by norm_num [c6Demo, c6Sel])).2.2.2.1,
    (handleFreezeFrame_spec "fa" "fi" "fp" "url" c6Demo c6Sel
      (by norm_num [c6Demo, c6Sel, c6W, List.find?]) (by norm_num [c6Demo, c6Sel])
      (by norm_num [c6Demo, c6Sel])).2.2.2.2.2.2.1⟩

/-! ## Copy/Paste (`handlePasteClip` in the App, `part_003`) -/

/-- The string value of a clip's `type` field. -/
def clipTypeStr : ClipType → String
  | ClipType.video => "video"
  | ClipType.image => "image"
  | ClipType.audio => "audio"
  | ClipType.text => "text"

/-- The string value of a `TrackType` enum member. -/
def trackTypeStr : TrackType → String
  | TrackType.video => "video"
  | TrackType.audio => "audio"
  | TrackType.text => "text"

/-- Result of a paste attempt: the (possibly unchanged) project state and an
optional user-visible warning (the `alert` in the source). -/
structure PasteOutcome where
  state : ProjectState
  warning : Option String
deriving DecidableEq, Repr

/-- `handlePasteClip` from the App.  The source compares the track's type and
the clipboard clip's type with JavaScript `===` on the underlying enum
strings (`t.type === clipboard.type`), embedded here as equality of
`trackTypeStr`/`clipTypeStr`; the fresh id is the parameter `newId`. -/
def handlePasteClip (newId : String) (clipboard : Option Clip)
    (p : ProjectState) : PasteOutcome :=
  match clipboard with
  | none => ⟨p, none⟩
  | some clip =>
      let originalTrack := p.tracks.find? (fun t => t.id = clip.trackId)
      let targetTrackId : Option String :=
        match originalTrack with
        | some tr =>
            if trackTypeStr tr.type = clipTypeStr clip.type then some tr.id
            else (p.tracks.find?
              (fun t => trackTypeStr t.type = clipTypeStr clip.type)).map Track.id
        | none =>
            (p.tracks.find?
              (fun t => trackTypeStr t.type = clipTypeStr clip.type)).map Track.id
      match targetTrackId with
      | none =>
          ⟨p, some ("No suitable track of type '" ++ clipTypeStr clip.type
            ++ "' found to paste the clip.")⟩
      | some tid =>
          let newClip : Clip :=
            { clip with
              id := newId,
              startOffset := p.currentTime,
              trackId := tid,
              selected := true }
          ⟨{ p with
              clips := (p.clips.map (fun c => { c with selected := false })) ++ [newClip],
              duration := max p.duration (p.currentTime + clip.duration + 10) }, none⟩

/-- The app's initial track list: a text track, two video tracks and two
audio tracks. -/
def c9Tracks : List Track :=
  [⟨"t1", TrackType.text, "Text", false, false, false, false⟩,
    ⟨"1", TrackType.video, "Video 1", false, false, false, false⟩,
    ⟨"2", TrackType.video, "Video 2", false, false, false, false⟩,
    ⟨"3", TrackType.audio, "Audio 1", false, false, false, false⟩,
    ⟨"4", TrackType.audio, "Audio 2", false, false, false, false⟩]

/-- A copied image clip (e.g. a freeze-frame still) whose original track "1"
is a video track. -/
def c9ImageClip : Clip :=
  { id := "I", assetId := "assetI", name := "I", trackId := "1", startOffset := 0,
    duration := 2, sourceStart := 0, type := ClipType.image, src := "", selected := false,
    properties := {} }

/-- The C9 project: the app's initial tracks, playhead at 3. -/
def c9Demo : ProjectState :=
  { tracks := c9Tracks, clips := [], markers := [], currentTime := 3, duration := 30,
    zoom := 20, isPlaying := false, aspect := "16:9" }

/-- C9 evidence: pasting a copied image clip aborts with the user-visible
warning and leaves the state unchanged even though its original track "1" is
a video track — the kind-compatible target the claim (and the rest of the
code base, e.g. the drag-drop `canDrop` rule and freeze-frame placement)
prescribes for video/image clips. -/
theorem handlePasteClip_image_aborts :
    (∃ tr ∈ c9Demo.tracks, tr.id = c9ImageClip.trackId ∧ tr.type = TrackType.video) ∧
      c9ImageClip.type = ClipType.image ∧
      (handlePasteClip "n1" (some c9ImageClip) c9Demo).state = c9Demo ∧
      (handlePasteClip "n1" (some c9ImageClip) c9Demo).warning
        = some "No suitable track of type 'image' found to paste the clip." := by
  refine ⟨⟨⟨"1", TrackType.video, "Video 1", false, false, false, false⟩,
      by simp [c9Demo, c9Tracks], by simp [c9ImageClip], rfl⟩, rfl, ?_, ?_⟩
  · decide
  · decide

/-! ## Drag, trim and snapping (`handleGlobalMove` in `Timeline.tsx`) -/

/-- The kind of an in-progress clip gesture. -/
inductive DragType where
  | move
  | resizeLeft
  | resizeRight
deriving DecidableEq, Repr

/-- The drag state captured on pointer-down. -/
structure DragState where
  clipId : String
  initialStartOffset : ℚ
  initialTrackId : String
  initialDuration : ℚ
  initialSourceStart : ℚ
  type : DragType
deriving DecidableEq, Repr

/-- The snap-anchor candidates: 0, the playhead, every marker's time, and
every clip's start and end. -/
def snapPoints (p : ProjectState) : List ℚ :=
  ([0, p.currentTime] ++ p.markers.map Marker.time)
    ++ p.clips.flatMap (fun c => [c.startOffset, c.startOffset + c.duration])

/-- The candidates for a given dragged clip: its own current start and end
are excluded. -/
def clipSnapPointsOf (p : ProjectState) (clip : Clip) : List ℚ :=
  (snapPoints p).filter
    (fun q => ¬ q = clip.startOffset ∧ ¬ q = clip.startOffset + clip.duration)

/-- The resize-edge snap search: walk the candidates carrying the current
position and the closest distance found so far (initially the threshold);
a closer candidate replaces the position and shrinks the distance.  Mirrors
the source loop, in which later distances are measured from the already
snapped position. -/
def snapPosition (threshold : ℚ) (points : List ℚ) (x : ℚ) : ℚ :=
  (points.foldl
    (fun acc point => if |acc.1 - point| < acc.2 then (point, |acc.1 - point|) else acc)
    (x, threshold)).1

/-- The move snap search: each candidate is tested against the clip's start
and then (from the possibly updated start) against its end, snapping the
corresponding edge. -/
def snapMove (threshold : ℚ) (points : List ℚ) (dur : ℚ) (start0 : ℚ) : ℚ :=
  (points.foldl
    (fun acc point =>
      let acc1 := if |acc.1 - point| < acc.2 then (point, |acc.1 - point|) else acc
      if |acc1.1 + dur - point| < acc1.2 then (point - dur, |acc1.1 + dur - point|)
      else acc1)
    (start0, threshold)).1

/-- The track-kind compatibility rule for dropping a dragged clip:
video/image clips go on video tracks, audio on audio, text on text. -/
def canDrop (ct : ClipType) (tt : TrackType) : Bool :=
  ((ct = ClipType.video || ct = ClipType.image) && tt = TrackType.video)
    || (ct = ClipType.audio && tt = TrackType.audio)
    || (ct = ClipType.text && tt = TrackType.text)

/-- The App's `updateClip`, specialised to a concrete field update `f`:
replace the matching clip by `f` of it, leaving every other clip alone. -/
def updateClipWith (p : ProjectState) (cid : String) (f : Clip → Clip) : ProjectState :=
  { p with clips := p.clips.map (fun c => if c.id = cid then f c else c) }

/-- The snapped proposed start of a move: `max 0 (initial + Δt)` then the
move snap search (`Δt = deltaX / zoom`, threshold `10 px / zoom`). -/
def moveNewStart (p : ProjectState) (ds : DragState) (deltaX : ℚ) (clip : Clip) : ℚ :=
  snapMove (10 / p.zoom) (clipSnapPointsOf p clip) clip.duration
    (max 0 (ds.initialStartOffset + deltaX / p.zoom))

/-- The track reassignment of a move: the track row under the pointer
(`trackIndex = ⌊(y - 32) / 96⌋`) if it exists and its kind accepts the clip,
otherwise the initial track. -/
def moveNewTrackId (p : ProjectState) (ds : DragState) (y : ℚ) (clip : Clip) : String :=
  let trackIndex : ℤ := ⌊(y - 32) / 96⌋
  match (if 0 ≤ trackIndex ∧ trackIndex < (p.tracks.length : ℤ)
      then p.tracks.get? trackIndex.toNat else none) with
  | some targetTrack =>
      if canDrop clip.type targetTrack.type then targetTrack.id else ds.initialTrackId
  | none => ds.initialTrackId

/-- The snapped proposed start of a resize-left. -/
def resizeLeftNewStart (p : ProjectState) (ds : DragState) (deltaX : ℚ)
    (clip : Clip) : ℚ :=
  snapPosition (10 / p.zoom) (clipSnapPointsOf p clip)
    (ds.initialStartOffset + deltaX / p.zoom)

/-- The snapped proposed end of a resize-right. -/
def resizeRightNewEnd (p : ProjectState) (ds : DragState) (deltaX : ℚ)
    (clip : Clip) : ℚ :=
  snapPosition (10 / p.zoom) (clipSnapPointsOf p clip)
    (ds.initialStartOffset + ds.initialDuration + deltaX / p.zoom)

/-- One `handleGlobalMove` clip-drag update, for a pointer at horizontal
offset `deltaX` pixels from the drag origin and vertical position `y`:
- move: start snapped from `max 0 (initial + Δt)`, track reassigned only to a
  kind-compatible row, update always applied;
- resize-left: post-snap delta shrinks `duration` and advances `sourceStart`
  by the same amount; no update at all if `duration < 0.1` or
  `sourceStart < 0` would result;
- resize-right: new end snapped, update applied only when the resulting
  `duration ≥ 0.1`; `sourceStart` untouched. -/
def dragUpdate (p : ProjectState) (ds : DragState) (deltaX y : ℚ) : ProjectState :=
  match p.clips.find? (fun c => c.id = ds.clipId) with
  | none => p
  | some clip =>
      match ds.type with
      | DragType.move =>
          updateClipWith p clip.id (fun c =>
            { c with
              startOffset := moveNewStart p ds deltaX clip,
              trackId := moveNewTrackId p ds y clip })
      | DragType.resizeLeft =>
          let newStart := resizeLeftNewStart p ds deltaX clip
          let newDuration := ds.initialDuration - (newStart - ds.initialStartOffset)
          let newSourceStart := ds.initialSourceStart + (newStart - ds.initialStartOffset)
          if newDuration ≥ 1/10 ∧ newSourceStart ≥ 0 then
            updateClipWith p clip.id (fun c =>
              { c with
                startOffset := newStart,
                duration := newDuration,
                sourceStart := newSourceStart })
          else p
      | DragType.resizeRight =>
          let newEnd := resizeRightNewEnd p ds deltaX clip
          let newDuration := newEnd - ds.initialStartOffset
          if newDuration ≥ 1/10 then
            updateClipWith p clip.id (fun c => { c with duration := newDuration })
          else p

/-- One recorded pointer-move while dragging. -/
structure DragInput where
  ds : DragState
  deltaX : ℚ
  y : ℚ

/-- A finite sequence of drag updates applied in order. -/
def applyDrags (inputs : List DragInput) (p : ProjectState) : ProjectState :=
  inputs.foldl (fun st inp => dragUpdate st inp.ds inp.deltaX inp.y) p

/-- The per-clip geometry invariant: minimum duration 0.1 s and a
nonnegative source offset. -/
def ClipInv (c : Clip) : Prop := 1/10 ≤ c.duration ∧ 0 ≤ c.sourceStart

lemma updateClipWith_inv (p : ProjectState) (cid : String) (f : Clip → Clip)
    (hf : ∀ c ∈ p.clips, ClipInv c → ClipInv (f c))
    (hp : ∀ c ∈ p.clips, ClipInv c) :
    ∀ c ∈ (updateClipWith p cid f).clips, ClipInv c := by
  intro c hc
  simp only [updateClipWith, List.mem_map] at hc
  obtain ⟨c0, hc0, rfl⟩ := hc
  by_cases h : c0.id = cid
  · rw [if_pos h]
    exact hf c0 hc0 (hp c0 hc0)
  · rw [if_neg h]
    exact hp c0 hc0

lemma updateClipWith_map_field {α : Type} (p : ProjectState) (cid : String)
    (f : Clip → Clip) (g : Clip → α) (hf : ∀ c, g (f c) = g c) :
    (updateClipWith p cid f).clips.map g = p.clips.map g := by
  simp only [updateClipWith]
  rw [List.map_map]
  apply List.map_congr_left
  intro c _
  by_cases h : c.id = cid
  · simp [Function.comp, h, hf]
  · simp [Function.comp, h]

lemma dragUpdate_inv (p : ProjectState) (ds : DragState) (dx y : ℚ)
    (hp : ∀ c ∈ p.clips, ClipInv c) :
    ∀ c ∈ (dragUpdate p ds dx y).clips, ClipInv c := by
  cases hfind : p.clips.find? (fun c => c.id = ds.clipId) with
  | none =>
      have hval : dragUpdate p ds dx y = p := by
        simp only [dragUpdate, hfind]
      rw [hval]
      exact hp
  | some clip =>
      cases htype : ds.type with
      | move =>
          have hval : dragUpdate p ds dx y
              = updateClipWith p clip.id (fun c =>
                  { c with
                    startOffset := moveNewStart p ds dx clip,
                    trackId := moveNewTrackId p ds y clip }) := by
            simp only [dragUpdate, hfind, htype]
          rw [hval]
          exact updateClipWith_inv p clip.id _
            (fun c _ hc => ⟨hc.1, hc.2⟩) hp
      | resizeLeft =>
          have hval : dragUpdate p ds dx y
              = (if ds.initialDuration
                    - (resizeLeftNewStart p ds dx clip - ds.initialStartOffset) ≥ 1/10
                  ∧ ds.initialSourceStart
                    + (resizeLeftNewStart p ds dx clip - ds.initialStartOffset) ≥ 0 then
                  updateClipWith p clip.id (fun c =>
                    { c with
                      startOffset := resizeLeftNewStart p ds dx clip,
                      duration := ds.initialDuration
                        - (resizeLeftNewStart p ds dx clip - ds.initialStartOffset),
                      sourceStart := ds.initialSourceStart
                        + (resizeLeftNewStart p ds dx clip - ds.initialStartOffset) })
                else p) := by
            simp only [dragUpdate, hfind, htype]
          rw [hval]
          by_cases hcond : ds.initialDuration
              - (resizeLeftNewStart p ds dx clip - ds.initialStartOffset) ≥ 1/10
            ∧ ds.initialSourceStart
              + (resizeLeftNewStart p ds dx clip - ds.initialStartOffset) ≥ 0
          · rw [if_pos hcond]
            exact updateClipWith_inv p clip.id _
              (fun c _ _ => ⟨hcond.1, hcond.2⟩) hp
          · rw [if_neg hcond]
            exact hp
      | resizeRight =>
          have hval : dragUpdate p ds dx y
              = (if resizeRightNewEnd p ds dx clip - ds.initialStartOffset ≥ 1/10 then
                  updateClipWith p clip.id (fun c =>
                    { c with
                      duration := resizeRightNewEnd p ds dx clip - ds.initialStartOffset })
                else p) := by
            simp only [dragUpdate, hfind, htype]
          rw [hval]
          by_cases hcond : resizeRightNewEnd p ds dx clip - ds.initialStartOffset ≥ 1/10
          · rw [if_pos hcond]
            exact updateClipWith_inv p clip.id _
              (fun c _ hc => ⟨hcond, hc.2⟩) hp
          · rw [if_neg hcond]
            exact hp

/-- C5: starting from a state in which every clip has `duration ≥ 0.1` and
`sourceStart ≥ 0`, any finite sequence of move / resize-left / resize-right
drag updates preserves both bounds; a move changes no clip's duration or
source start; a resize-left whose post-snap result would violate either bound
applies no update at all; and a resize-right never touches any source start
and applies no update when the resulting duration would be below 0.1. -/
theorem dragUpdates_spec :
    (∀ (inputs : List DragInput) (p : ProjectState),
      (∀ c ∈ p.clips, ClipInv c) → ∀ c ∈ (applyDrags inputs p).clips, ClipInv c) ∧
    (∀ (p : ProjectState) (ds : DragState) (dx y : ℚ), ds.type = DragType.move →
      (dragUpdate p ds dx y).clips.map Clip.duration = p.clips.map Clip.duration ∧
        (dragUpdate p ds dx y).clips.map Clip.sourceStart
          = p.clips.map Clip.sourceStart) ∧
    (∀ (p : ProjectState) (ds : DragState) (dx y : ℚ) (clip : Clip),
      ds.type = DragType.resizeLeft →
      p.clips.find? (fun c => c.id = ds.clipId) = some clip →
      (ds.initialDuration - (resizeLeftNewStart p ds dx clip - ds.initialStartOffset) < 1/10
        ∨ ds.initialSourceStart
            + (resizeLeftNewStart p ds dx clip - ds.initialStartOffset) < 0) →
      dragUpdate p ds dx y = p) ∧
    (∀ (p : ProjectState) (ds : DragState) (dx y : ℚ), ds.type = DragType.resizeRight →
      (dragUpdate p ds dx y).clips.map Clip.sourceStart
        = p.clips.map Clip.sourceStart) ∧
    (∀ (p : ProjectState) (ds : DragState) (dx y : ℚ) (clip : Clip),
      ds.type = DragType.resizeRight →
      p.clips.find? (fun c => c.id = ds.clipId) = some clip →
      resizeRightNewEnd p ds dx clip - ds.initialStartOffset < 1/10 →
      dragUpdate p ds dx y = p) := by
  refine ⟨?_, ?_, ?_, ?_, ?_⟩
  · intro inputs
    induction inputs with
    | nil => intro p hp; exact hp
    | cons inp rest ih =>
        intro p hp
        exact ih (dragUpdate p inp.ds inp.deltaX inp.y)
          (dragUpdate_inv p inp.ds inp.deltaX inp.y hp)
  · intro p ds dx y htype
    cases hfind : p.clips.find? (fun c => c.id = ds.clipId) with
    | none =>
        have hval : dragUpdate p ds dx y = p := by
          simp only [dragUpdate, hfind]
        rw [hval]
        exact ⟨rfl, rfl⟩
    | some clip =>
        have hval : dragUpdate p ds dx y
            = updateClipWith p clip.id (fun c =>
                { c with
                  startOffset := moveNewStart p ds dx clip,
                  trackId := moveNewTrackId p ds y clip }) := by
          simp only [dragUpdate, hfind, htype]
        rw [hval]
        exact ⟨updateClipWith_map_field p clip.id _ Clip.duration (fun c => rfl),
          updateClipWith_map_field p clip.id _ Clip.sourceStart (fun c => rfl)⟩
  · intro p ds dx y clip htype hfind hrej
    have hval : dragUpdate p ds dx y
        = (if ds.initialDuration
              - (resizeLeftNewStart p ds dx clip - ds.initialStartOffset) ≥ 1/10
            ∧ ds.initialSourceStart
              + (resizeLeftNewStart p ds dx clip - ds.initialStartOffset) ≥ 0 then
            updateClipWith p clip.id (fun c =>
              { c with
                startOffset := resizeLeftNewStart p ds dx clip,
                duration := ds.initialDuration
                  - (resizeLeftNewStart p ds dx clip - ds.initialStartOffset),
                sourceStart := ds.initialSourceStart
                  + (resizeLeftNewStart p ds dx clip - ds.initialStartOffset) })
          else p) := by
      simp only [dragUpdate, hfind, htype]
    rw [hval, if_neg ?_]
    rintro ⟨hd, hs⟩
    rcases hrej with h | h
    · exact absurd hd (not_le.mpr h)
    · exact absurd hs (not_le.mpr h)
  · intro p ds dx y htype
    cases hfind : p.clips.find? (fun c => c.id = ds.clipId) with
    | none =>
        have hval : dragUpdate p ds dx y = p := by
          simp only [dragUpdate, hfind]
        rw [hval]
    | some clip =>
        have hval : dragUpdate p ds dx y
            = (if resizeRightNewEnd p ds dx clip - ds.initialStartOffset ≥ 1/10 then
                updateClipWith p clip.id (fun c =>
                  { c with
                    duration := resizeRightNewEnd p ds dx clip - ds.initialStartOffset })
              else p) := by
          simp only [dragUpdate, hfind, htype]
        rw [hval]
        by_cases hcond : resizeRightNewEnd p ds dx clip - ds.initialStartOffset ≥ 1/10
        · rw [if_pos hcond]
          exact updateClipWith_map_field p clip.id _ Clip.sourceStart (fun c => rfl)
        · rw [if_neg hcond]
  · intro p ds dx y clip htype hfind hrej
    have hval : dragUpdate p ds dx y
        = (if resizeRightNewEnd p ds dx clip - ds.initialStartOffset ≥ 1/10 then
            updateClipWith p clip.id (fun c =>
              { c with
                duration := resizeRightNewEnd p ds dx clip - ds.initialStartOffset })
          else p) := by
      simp only [dragUpdate, hfind, htype]
    rw [hval, if_neg (not_le.mpr hrej)]

/-- The C5 witness project: one clip satisfying the geometry invariant. -/
def c5Demo : ProjectState :=
  { tracks := [c1Track1, c1Track2], clips := [c2Other], markers := [],
    currentTime := 0, duration := 30, zoom := 20, isPlaying := false, aspect := "16:9" }

/-- The drag state of the C5 witness gesture. -/
def c5DragState : DragState := ⟨"O", 10, "2", 3, 0, DragType.move⟩

/-- A concrete move gesture on that clip. -/
def c5Input : DragInput := { ds := c5DragState, deltaX := 5, y := 0 }

/-- Witness for C5: the invariant holds before and after a concrete drag. -/
theorem dragUpdates_spec_witness :
    (∀ c ∈ c5Demo.clips, ClipInv c) ∧
      ∀ c ∈ (applyDrags [c5Input] c5Demo).clips, ClipInv c :=
  ⟨by
    intro c hc
    simp only [c5Demo, List.mem_singleton] at hc
    subst hc
    constructor <;> norm_num [c2Other],
  dragUpdates_spec.1 [c5Input] c5Demo (by
    intro c hc
    simp only [c5Demo, List.mem_singleton] at hc
    subst hc
    constructor <;> norm_num [c2Other])⟩

end Lumina
